import Mathlib

/-!
Verification of the funnelback-proxy repository.

This file gives a shallow embedding, in Lean 4, of the parts of the
repository that the checked claims are about:

* src/api/server.js    — an express app for /proxy/funnelback, and the
                         programs search handler (two concatenated files);
* src/api/suggest.js   — the autocomplete suggestion handler;
* src/api/suggestPrograms.js — the program suggestion handler.

JavaScript strings are modelled as Lean String or List Char; JS objects
used as string maps are modelled as functions String → Option _ (none is
an absent key, mirroring undefined).  A JS computation that can throw is
modelled as an Option-valued function, none being the thrown exception.
-/

namespace FunnelbackProxy

/-- A JS query-parameter value: the handlers pass strings through from the
request and also install numeric values (num_ranks: 5). -/
inductive QVal where
  | str (s : String)
  | num (n : Nat)
deriving DecidableEq, Repr

/-- A request query object, as a string-keyed map (none = absent key). -/
def Params := String → Option QVal

/-- A request header object, as a string-keyed map (none = absent header). -/
def Headers := String → Option String

/-! ### decodeURIComponent

Model of the JS decodeURIComponent builtin, as used by logEvent in
src/api/server.js (line 104) and the Request Headers block of
src/api/suggest.js / suggestPrograms.js (line 83).  The builtin percent-
decodes the string, interpreting consecutive %XX groups as a UTF-8 byte
sequence, and throws URIError (here: none) when a % is not followed by two
hex digits or the byte sequence is not well-formed UTF-8. -/

/-- Value of a hex digit, none when the character is not a hex digit. -/
def hexVal (c : Char) : Option Nat :=
  if '0' ≤ c ∧ c ≤ '9' then some (c.toNat - '0'.toNat)
  else if 'a' ≤ c ∧ c ≤ 'f' then some (c.toNat - 'a'.toNat + 10)
  else if 'A' ≤ c ∧ c ≤ 'F' then some (c.toNat - 'A'.toNat + 10)
  else none

/-- First pass of decodeURIComponent: a literal character stays itself
(Sum.inl), a %XX group becomes the byte it denotes (Sum.inr); a % not
followed by two hex digits throws. -/
def uriTokens : List Char → Option (List (Sum Char Nat))
  | [] => some []
  | '%' :: c1 :: c2 :: rest =>
    match hexVal c1, hexVal c2 with
    | some h, some l => (uriTokens rest).map (Sum.inr (16 * h + l) :: ·)
    | _, _ => none
  | '%' :: _ => none
  | c :: rest => (uriTokens rest).map (Sum.inl c :: ·)

/-- Is b a UTF-8 continuation byte (10xxxxxx)? -/
def utf8Cont (b : Nat) : Bool := 0x80 ≤ b ∧ b ≤ 0xBF

/-- Second pass of decodeURIComponent: assemble percent-decoded bytes into
scalar values following strict UTF-8 (continuation bytes must themselves
be percent-encoded; overlong encodings and surrogates throw). -/
def utf8Assemble : List (Sum Char Nat) → Option (List Char)
  | [] => some []
  | .inl c :: rest => (utf8Assemble rest).map (c :: ·)
  | .inr b :: rest =>
    if b < 0x80 then (utf8Assemble rest).map (Char.ofNat b :: ·)
    else if 0xC2 ≤ b ∧ b ≤ 0xDF then
      match rest with
      | .inr b2 :: rest2 =>
        if utf8Cont b2 then
          (utf8Assemble rest2).map (Char.ofNat ((b - 0xC0) * 64 + (b2 - 0x80)) :: ·)
        else none
      | _ => none
    else if 0xE0 ≤ b ∧ b ≤ 0xEF then
      match rest with
      | .inr b2 :: .inr b3 :: rest2 =>
        let okB2 : Bool :=
          if b = 0xE0 then 0xA0 ≤ b2 ∧ b2 ≤ 0xBF
          else if b = 0xED then 0x80 ≤ b2 ∧ b2 ≤ 0x9F
          else utf8Cont b2
        if okB2 ∧ utf8Cont b3 then
          (utf8Assemble rest2).map
            (Char.ofNat ((b - 0xE0) * 4096 + (b2 - 0x80) * 64 + (b3 - 0x80)) :: ·)
        else none
      | _ => none
    else if 0xF0 ≤ b ∧ b ≤ 0xF4 then
      match rest with
      | .inr b2 :: .inr b3 :: .inr b4 :: rest2 =>
        let okB2 : Bool :=
          if b = 0xF0 then 0x90 ≤ b2 ∧ b2 ≤ 0xBF
          else if b = 0xF4 then 0x80 ≤ b2 ∧ b2 ≤ 0x8F
          else utf8Cont b2
        if okB2 ∧ utf8Cont b3 ∧ utf8Cont b4 then
          (utf8Assemble rest2).map
            (Char.ofNat ((b - 0xF0) * 262144 + (b2 - 0x80) * 4096
              + (b3 - 0x80) * 64 + (b4 - 0x80)) :: ·)
        else none
      | _ => none
    else none

/-- decodeURIComponent on character lists; none models a thrown URIError. -/
def percentDecode (l : List Char) : Option (List Char) :=
  (uriTokens l).bind utf8Assemble

/-- decodeURIComponent on strings; none models a thrown URIError. -/
def decodeURIComponent (s : String) : Option String :=
  (percentDecode s.data).map List.asString

/-! ### Requests and the JS or-else idiom -/

/-- The part of an express request the handlers consult. -/
structure Request where
  method : String
  query : Params
  headers : Headers
  socketRemoteAddress : Option String

/-- JS a || b on optional strings: undefined and the empty string are falsy. -/
def jsOr (a b : Option String) : Option String :=
  match a with
  | some s => if s = "" then b else some s
  | none => b

/-- userIp as computed by every handler:
req.headers[\x7b'x-forwarded-for'\x7d] || req.socket.remoteAddress. -/
def userIp (req : Request) : Option String :=
  jsOr (req.headers "x-forwarded-for") req.socketRemoteAddress

/-! ### Location logging (src/api/server.js logEvent, src/api/suggest.js logEvent)

server.js lines 103-112 build locationInfo from the x-vercel-ip-* headers,
percent-decoding only the city; suggest.js / suggestPrograms.js line 83
store the decoded city inside the Request Headers log block.  Both call
decodeURIComponent with no guard, so a malformed header value makes the
whole log entry (and with it the handler) throw: the Option result below
is none exactly when the JS code throws. -/

/-- The location block of a server.js log entry. -/
structure LocationInfo where
  city : String
  region : Option String
  country : Option String
  timezone : Option String
  lat : Option String
  long : Option String
deriving DecidableEq, Repr

/-- locationInfo from src/api/server.js logEvent (lines 103-112); none
models the URIError thrown by decodeURIComponent on a malformed city. -/
def locationInfo (headers : Headers) : Option LocationInfo :=
  (decodeURIComponent ((headers "x-vercel-ip-city").getD "")).map fun city =>
    { city := city
      region := headers "x-vercel-ip-country-region"
      country := headers "x-vercel-ip-country"
      timezone := headers "x-vercel-ip-timezone"
      lat := headers "x-vercel-ip-latitude"
      long := headers "x-vercel-ip-longitude" }

/-- The x-vercel-ip-city value stored in the Request Headers block of
src/api/suggest.js and src/api/suggestPrograms.js logEvent (line 83);
none models the URIError thrown on a malformed header value. -/
def suggestLoggedCity (headers : Headers) : Option String :=
  decodeURIComponent ((headers "x-vercel-ip-city").getD "")

/-! ### Error responses (catch branches of the four handlers) -/

/-- What the handlers read off a caught axios error: its message and,
when the backend answered at all, the response status and body. -/
structure AxiosError where
  message : String
  responseStatus : Option Nat
  responseData : Option String
deriving DecidableEq, Repr

/-- Body shape \x7b error, details \x7d sent by the two suggest handlers. -/
structure SuggestErrorResponse where
  status : Nat
  error : String
  details : String
deriving DecidableEq, Repr

/-- Catch branch of src/api/suggest.js (lines 225-238):
res.status(500).json(\x7b error: 'Suggestion error',
details: error.response?.data || error.message \x7d). -/
def suggestErrorResponse (e : AxiosError) : SuggestErrorResponse :=
  { status := 500
    error := "Suggestion error"
    details := (jsOr e.responseData (some e.message)).getD "" }

/-- Catch branch of src/api/suggestPrograms.js (lines 175-188):
res.status(500).json(\x7b error: 'Search error',
details: error.response?.data || error.message \x7d). -/
def suggestProgramsErrorResponse (e : AxiosError) : SuggestErrorResponse :=
  { status := 500
    error := "Search error"
    details := (jsOr e.responseData (some e.message)).getD "" }

/-- Response of the programs search handler's catch branch. -/
structure ProgramsErrorResponse where
  status : Nat
  errorFlag : Bool
  message : String
  bodyStatus : Nat
deriving DecidableEq, Repr

/-- Catch branch of the programs search handler in src/api/server.js
(lines 300-316): status error.response?.status || 500, body
\x7b error: true, message: error.message, status \x7d. -/
def serverProgramsErrorResponse (e : AxiosError) : ProgramsErrorResponse :=
  { status := e.responseStatus.getD 500
    errorFlag := true
    message := e.message
    bodyStatus := e.responseStatus.getD 500 }

/-- Body shape \x7b error \x7d sent by the express app. -/
structure BasicErrorResponse where
  status : Nat
  error : String
deriving DecidableEq, Repr

/-- Catch branch of the /proxy/funnelback express route in
src/api/server.js (lines 22-24): res.status(500).json(\x7b error:
error.message \x7d). -/
def serverFunnelbackErrorResponse (e : AxiosError) : BasicErrorResponse :=
  { status := 500, error := e.message }

/-! ### Backend call configurations (the axios.get config objects) -/

/-- An axios.get config object as built by the handlers: none for timeout
means the config object has no timeout key (axios then applies no
timeout). -/
structure AxiosConfig where
  url : String
  params : Params
  headers : List (String × Option String)
  timeout : Option Nat

/-- Query sent by the programs search handler in src/api/server.js
(lines 215-221): \x7b ...req.query, collection, profile, num_ranks,
form \x7d — the literal keys override any client-supplied value. -/
def programsSearchQuery (q : Params) : Params := fun k =>
  if k = "collection" then some (.str "seattleu~ds-programs")
  else if k = "profile" then some (.str "_default")
  else if k = "num_ranks" then some (.num 5)
  else if k = "form" then some (.str "partial")
  else q k

/-- Query sent by src/api/suggestPrograms.js (lines 133-140):
\x7b ...req.query, collection, num_ranks, sort, profile, form \x7d. -/
def suggestProgramsQuery (q : Params) : Params := fun k =>
  if k = "collection" then some (.str "seattleu~ds-programs")
  else if k = "num_ranks" then some (.num 5)
  else if k = "sort" then some (.str "title")
  else if k = "profile" then some (.str "_default")
  else if k = "form" then some (.str "json")
  else q k

/-- axios.get config of src/api/suggest.js (lines 205-211). -/
def suggestAxiosConfig (req : Request) : AxiosConfig :=
  { url := "https://dxp-us-search.funnelback.squiz.cloud/s/suggest.json"
    params := req.query
    headers := [("Accept", some "application/json"), ("X-Forwarded-For", userIp req)]
    timeout := none }

/-- axios.get config of the /proxy/funnelback express route in
src/api/server.js (lines 16-19). -/
def serverFunnelbackAxiosConfig (req : Request) : AxiosConfig :=
  { url := "https://dxp-us-search.funnelback.squiz.cloud/s/search.html"
    params := req.query
    headers := [("X-Forwarded-For", userIp req)]
    timeout := none }

/-- axios.get config of the programs search handler in src/api/server.js
(lines 243-250). -/
def serverProgramsAxiosConfig (req : Request) : AxiosConfig :=
  { url := "https://dxp-us-search.funnelback.squiz.cloud/s/search.json"
    params := programsSearchQuery req.query
    headers := [("Accept", some "application/json"),
                ("Content-Type", some "application/json"),
                ("X-Forwarded-For", userIp req)]
    timeout := none }

/-- axios.get config of src/api/suggestPrograms.js (lines 148-153). -/
def suggestProgramsAxiosConfig (req : Request) : AxiosConfig :=
  { url := "https://dxp-us-search.funnelback.squiz.cloud/s/search.html"
    params := suggestProgramsQuery req.query
    headers := [("Accept", some "application/json")]
    timeout := none }

/-! ### Control flow of the suggest handler (src/api/suggest.js, lines 176-239)

The handler is modelled as the sequence of observable effects it performs.
The effect vocabulary includes cache operations so that statements about
the absence of caching are meaningful: the handler body never emits one.
The first logEvent call receives req.headers and percent-decodes the city
header, so a malformed value throws before anything else happens; in the
non-OPTIONS path that exception is caught, but the catch block calls
logEvent on the same headers again and the second throw escapes. -/

inductive Effect where
  | setCorsHeaders
  | logInfo (action : String)
  | logError (action : String)
  | cacheLookup (key : String)
  | cacheWrite (key : String)
  | backendCall (url : String)
  | respond (status : Nat)
  | uncaughtException
deriving DecidableEq, Repr

/-- Effect trace of the suggest.js handler; backendOk tells whether the
awaited axios.get resolved (true) or rejected (false). -/
def suggestHandlerTrace (req : Request) (backendOk : Bool) : List Effect :=
  if req.method = "OPTIONS" then
    match suggestLoggedCity req.headers with
    | some _ => [.setCorsHeaders, .logInfo "OPTIONS request", .respond 200]
    | none => [.setCorsHeaders, .uncaughtException]
  else
    match suggestLoggedCity req.headers with
    | none => [.setCorsHeaders, .uncaughtException]
    | some _ =>
      if backendOk then
        [.setCorsHeaders, .logInfo "Request received",
         .backendCall "https://dxp-us-search.funnelback.squiz.cloud/s/suggest.json",
         .logInfo "Response enriched", .respond 200]
      else
        [.setCorsHeaders, .logInfo "Request received",
         .backendCall "https://dxp-us-search.funnelback.squiz.cloud/s/suggest.json",
         .logError "Handler error", .respond 500]

/-- Length of the query parameter as the spec's cache rules measure it
(absent or non-string counts as length 0). -/
def queryLength (q : Params) : Nat :=
  match q "query" with
  | some (.str s) => s.length
  | _ => 0

/-! ### enrichSuggestions (src/api/suggest.js, lines 113-165) -/

/-- JS Boolean() on a query-parameter value: undefined, the empty string
and 0 are falsy. -/
def qtruthy : Option QVal → Bool
  | none => false
  | some (.str s) => !(s == "")
  | some (.num n) => !(n == 0)

/-- One enriched suggestion: \x7b display, metadata: \x7b tabs \x7d \x7d. -/
structure EnrichedSuggestion where
  display : String
  tabs : List String
deriving DecidableEq, Repr

/-- enrichSuggestions from src/api/suggest.js: maps each raw suggestion to
\x7b display, metadata \x7d, pushing 'program-main' when the programMain
tab parameter is truthy and then 'Faculty & Staff' when the staff tab
parameter is truthy. -/
def enrichSuggestions (suggestions : List String) (query : Params) :
    List EnrichedSuggestion :=
  let isProgramTab := qtruthy (query "f.Tabs|programMain")
  let isStaffTab := qtruthy (query "f.Tabs|seattleu~ds-staff")
  suggestions.map fun s =>
    { display := s
      tabs := (if isProgramTab then ["program-main"] else [])
        ++ (if isStaffTab then ["Faculty & Staff"] else []) }

/-! ### cleanProgramTitle (src/api/server.js, lines 61-71)

title.split('|')[0], then .replace(tag pattern, ''), then .trim().
The replace scans left to right: at a '<' it takes the maximal run of
non-'>' characters; if the run is nonempty and a '>' follows, that whole
match is dropped and scanning resumes after it, otherwise the '<' is kept
and scanning resumes at the next character.  The scanner below is written
with explicit fuel (any fuel at least the length of the list is enough)
so that it evaluates by definitional reduction. -/

/-- JS String.split on the pipe character. -/
def splitPipe : List Char → List (List Char)
  | [] => [[]]
  | '|' :: rest => [] :: splitPipe rest
  | c :: rest =>
    match splitPipe rest with
    | [] => [[c]]
    | s :: ss => (c :: s) :: ss

/-- split('|')[0] — the part before the first pipe. -/
def firstSegment (l : List Char) : List Char := (splitPipe l).headD []

/-- Whitespace characters removed by JS String.trim (ASCII range). -/
def isWs (c : Char) : Bool :=
  c = ' ' ∨ c = '\t' ∨ c = '\n' ∨ c = '\r' ∨ c = '\x0b' ∨ c = '\x0c'

/-- JS String.trim: drop whitespace from both ends. -/
def jsTrim (l : List Char) : List Char :=
  ((l.dropWhile isWs).reverse.dropWhile isWs).reverse

/-- Characters an HTML-tag body may contain (anything but '>'). -/
def notGt (c : Char) : Bool := c ≠ '>'

/-- One pass of .replace over the tag pattern, with fuel. -/
def stripTagsGo : Nat → List Char → List Char
  | 0, l => l
  | fuel + 1, l =>
    match l with
    | [] => []
    | '<' :: rest =>
      if rest.takeWhile notGt = [] ∨ rest.dropWhile notGt = [] then
        '<' :: stripTagsGo fuel rest
      else
        stripTagsGo fuel (rest.dropWhile notGt).tail
    | c :: rest => c :: stripTagsGo fuel rest

/-- .replace of every substring matching the tag pattern by ''. -/
def stripTags (l : List Char) : List Char := stripTagsGo l.length l

/-- cleanProgramTitle from src/api/server.js.  The argument is the raw
title field (none models undefined/null); a falsy title returns ''. -/
def cleanProgramTitle : Option String → String
  | none => ""
  | some title =>
    if title = "" then ""
    else (jsTrim (stripTags (firstSegment title.data))).asString

/-- The list contains a substring matching the HTML-tag pattern: a '<',
a nonempty run of non-'>' characters, then a '>'. -/
def ContainsTag (l : List Char) : Prop :=
  ∃ a t b, l = a ++ '<' :: (t ++ '>' :: b) ∧ t ≠ [] ∧ '>' ∉ t

/-- Does a tag match start at the head of the list? -/
def tagHead (l : List Char) : Bool :=
  match l with
  | '<' :: rest => !(rest.takeWhile notGt).isEmpty && !(rest.dropWhile notGt).isEmpty
  | _ => false

/-- Does a tag match start anywhere in the list? -/
def hasTag : List Char → Bool
  | [] => false
  | c :: rest => tagHead (c :: rest) || hasTag rest

/-! ### Cache key derivation (spec-modelled)

The repository's Redis cache layer (lib/cacheService.js in the layout the
README describes) is not under src/; only the spec describes it. -/

/-- Modelled from the spec: the cache key generator of the missing
lib/cacheService.js.  Per the spec, the key is a deterministic function
of the endpoint identifier and the sorted query parameters: the pairs are
rendered and joined in sorted order, scoped by the endpoint name. -/
def generateCacheKey (endpoint : String) (params : List (String × String)) : String :=
  endpoint ++ ":"
    ++ String.intercalate "&" (List.mergeSort (params.map fun p => p.1 ++ "=" ++ p.2))

/-! ### Concrete inputs used by counterexamples and witnesses -/

/-- A backend failure whose response body is an upstream error page. -/
def upstreamError : AxiosError :=
  { message := "Request failed with status code 502"
    responseStatus := some 502
    responseData := some "<html>funnelback internal stack trace</html>" }

/-- A backend failure with a 404 response. -/
def notFoundError : AxiosError :=
  { message := "Request failed with status code 404"
    responseStatus := some 404
    responseData := some "Not Found" }

/-- Headers whose x-vercel-ip-city value is not valid percent-encoding. -/
def malformedCityHeaders : Headers := fun k =>
  if k = "x-vercel-ip-city" then some "%" else none

/-- Headers carrying a percent-encoded region next to a plain city. -/
def encodedRegionHeaders : Headers := fun k =>
  if k = "x-vercel-ip-city" then some "Paris"
  else if k = "x-vercel-ip-country-region" then some "Ile%2Dde%2DFrance"
  else none

/-- A plain GET request with a one-word query. -/
def sampleRequest : Request :=
  { method := "GET"
    query := fun k => if k = "query" then some (.str "computer") else none
    headers := fun _ => none
    socketRemoteAddress := some "203.0.113.7" }

/-- A GET request whose query is a single character. -/
def shortQueryRequest : Request :=
  { method := "GET"
    query := fun k => if k = "query" then some (.str "a") else none
    headers := fun k => if k = "x-vercel-ip-city" then some "Seattle" else none
    socketRemoteAddress := some "203.0.113.7" }

/-- A query map with no sort parameter. -/
def qNoSort : Params := fun k =>
  if k = "query" then some (.str "biology") else none

/-- qNoSort with a client-supplied sort parameter added. -/
def qWithSort : Params := fun k =>
  if k = "sort" then some (.str "date") else qNoSort k

/-- qNoSort with a client-supplied collection parameter added. -/
def qClientCollection : Params := fun k =>
  if k = "collection" then some (.str "client~override") else qNoSort k

/-- A query map that marks the programs tab. -/
def tabQuery : Params := fun k =>
  if k = "f.Tabs|programMain" then some (.str "true") else none

/-! ### Claim C1 — error responses echo upstream detail -/

/-- Claim C1 counterexample: on a backend failure the suggest handler
sends the raw upstream response body verbatim in the details field of its
error response, so internal detail is echoed, not only logged. -/
theorem suggest_error_echoes_upstream_body :
    (suggestErrorResponse upstreamError).details
      = "<html>funnelback internal stack trace</html>" ∧
    upstreamError.responseData
      = some "<html>funnelback internal stack trace</html>" := by
  exact ⟨rfl, rfl⟩

/-- Claim C1 amended: every handler's error response carries a fixed
generic top-level error marker (independent of the triggering error), but
the suggest handlers also send a details field that echoes the upstream
response body when one is present and the error message otherwise, and
the two server.js branches echo the error message itself. -/
theorem error_responses_generic_plus_echoed_detail (e e' : AxiosError) :
    (suggestErrorResponse e).error = (suggestErrorResponse e').error ∧
    (suggestProgramsErrorResponse e).error = (suggestProgramsErrorResponse e').error ∧
    (suggestErrorResponse e).details = (jsOr e.responseData (some e.message)).getD "" ∧
    (suggestProgramsErrorResponse e).details = (jsOr e.responseData (some e.message)).getD "" ∧
    (serverProgramsErrorResponse e).message = e.message ∧
    (serverFunnelbackErrorResponse e).error = e.message := by
  exact ⟨rfl, rfl, rfl, rfl, rfl, rfl⟩

/-! ### Claim C2 — error status derived from the backend status -/

/-- Claim C2 counterexample: on a backend 404 the suggest handlers and the
express route still answer 500, not the backend's status. -/
theorem suggest_error_status_ignores_backend_status :
    notFoundError.responseStatus = some 404 ∧
    (suggestErrorResponse notFoundError).status = 500 ∧
    (suggestProgramsErrorResponse notFoundError).status = 500 ∧
    (serverFunnelbackErrorResponse notFoundError).status = 500 := by
  exact ⟨rfl, rfl, rfl, rfl⟩

/-- Claim C2 amended: only the programs search handler derives its error
status from the backend response (backend status when present, 500
otherwise); the suggest handler, the programs suggestion handler and the
/proxy/funnelback express route always answer 500. -/
theorem error_status_by_handler (e : AxiosError) :
    (serverProgramsErrorResponse e).status = e.responseStatus.getD 500 ∧
    (suggestErrorResponse e).status = 500 ∧
    (suggestProgramsErrorResponse e).status = 500 ∧
    (serverFunnelbackErrorResponse e).status = 500 := by
  exact ⟨rfl, rfl, rfl, rfl⟩

/-! ### Claim C3 — short queries bypass the cache -/

/-- Claim C3: on the suggestion endpoint, a request whose query is shorter
than 3 characters (indeed any request the handler completes) performs no
cache lookup and no cache write, and calls the backend. -/
theorem short_query_bypasses_cache (req : Request) (ok : Bool)
    (hm : req.method ≠ "OPTIONS")
    (hlog : (suggestLoggedCity req.headers).isSome = true)
    (_hq : queryLength req.query < 3) :
    (∀ k, Effect.cacheLookup k ∉ suggestHandlerTrace req ok ∧
          Effect.cacheWrite k ∉ suggestHandlerTrace req ok) ∧
    Effect.backendCall "https://dxp-us-search.funnelback.squiz.cloud/s/suggest.json"
      ∈ suggestHandlerTrace req ok := by
  obtain ⟨city, hcity⟩ := Option.isSome_iff_exists.mp hlog
  unfold suggestHandlerTrace
  rw [if_neg hm, hcity]
  cases ok <;> simp

/-- Claim C3 witness: the 1-character query "a" reaches the backend with
no cache effect. -/
theorem short_query_bypasses_cache_witness :
    Effect.backendCall "https://dxp-us-search.funnelback.squiz.cloud/s/suggest.json"
      ∈ suggestHandlerTrace shortQueryRequest true ∧
    Effect.cacheLookup "suggest:query=a" ∉ suggestHandlerTrace shortQueryRequest true := by
  have h := short_query_bypasses_cache shortQueryRequest true
    (by decide) (by decide) (by decide)
  exact ⟨h.2, (h.1 "suggest:query=a").1⟩

/-! ### Claim C4 — location logging throws on malformed geo headers -/

/-- Claim C4, evaluated at the failing input: with
x-vercel-ip-city = "%", both the server.js locationInfo block and the
suggest.js Request Headers block throw URIError (modelled none) instead
of producing a degraded result, so resolution does not return. -/
theorem location_logging_throws_on_malformed_city :
    locationInfo malformedCityHeaders = none ∧
    suggestLoggedCity malformedCityHeaders = none := by
  exact ⟨rfl, rfl⟩

/-! ### Claim C5 — backend calls carry no timeout -/

/-- Claim C5 counterexample: the suggest handler's axios.get config (and
the express route's) sets no timeout at all. -/
theorem backend_call_has_no_timeout_at_sample :
    (suggestAxiosConfig sampleRequest).timeout = none ∧
    (serverFunnelbackAxiosConfig sampleRequest).timeout = none := by
  exact ⟨rfl, rfl⟩

/-- Claim C5 amended: none of the four backend calls configures a request
timeout, so no timeout expiry is distinguished: a hung request is never
failed by the proxy, and a network-level timeout surfaces only through
the undifferentiated catch branches. -/
theorem no_backend_call_sets_timeout (req : Request) :
    (suggestAxiosConfig req).timeout = none ∧
    (serverFunnelbackAxiosConfig req).timeout = none ∧
    (serverProgramsAxiosConfig req).timeout = none ∧
    (suggestProgramsAxiosConfig req).timeout = none := by
  exact ⟨rfl, rfl, rfl, rfl⟩

/-! ### Claim C6 — which location fields are percent-decoded -/

/-- Claim C6 counterexample: a percent-encoded region value is stored
verbatim by locationInfo even though its percent-decoding differs, so not
every location field is decoded before storage. -/
theorem region_not_percent_decoded :
    (locationInfo encodedRegionHeaders).map (fun li => li.region)
      = some (some "Ile%2Dde%2DFrance") ∧
    decodeURIComponent "Ile%2Dde%2DFrance" = some "Ile-de-France" := by
  exact ⟨by decide, by decide⟩

/-- Claim C6 amended: only the city field is percent-decoded before
storage — the stored city equals the percent-decoding of the header city
whenever that decoding succeeds — while region, country, timezone and the
coordinates are stored exactly as the headers provide them. -/
theorem only_city_percent_decoded (h : Headers) (city : String)
    (hd : decodeURIComponent ((h "x-vercel-ip-city").getD "") = some city) :
    locationInfo h = some
      { city := city
        region := h "x-vercel-ip-country-region"
        country := h "x-vercel-ip-country"
        timezone := h "x-vercel-ip-timezone"
        lat := h "x-vercel-ip-latitude"
        long := h "x-vercel-ip-longitude" } ∧
    suggestLoggedCity h = some city := by
  unfold locationInfo suggestLoggedCity
  rw [hd]
  exact ⟨rfl, rfl⟩

/-- Claim C6 witness: concrete headers where the city decodes. -/
theorem only_city_percent_decoded_witness :
    locationInfo encodedRegionHeaders = some
      { city := "Paris"
        region := encodedRegionHeaders "x-vercel-ip-country-region"
        country := encodedRegionHeaders "x-vercel-ip-country"
        timezone := encodedRegionHeaders "x-vercel-ip-timezone"
        lat := encodedRegionHeaders "x-vercel-ip-latitude"
        long := encodedRegionHeaders "x-vercel-ip-longitude" } ∧
    suggestLoggedCity encodedRegionHeaders = some "Paris" :=
  only_city_percent_decoded encodedRegionHeaders "Paris" (by decide)

/-! ### Claim C8 — which backend parameters the programs handlers force -/

/-- Claim C8 counterexample: the programs search handler in server.js does
not force sort, so two requests that differ only in the client-supplied
sort parameter send different parameter sets to the backend. -/
theorem server_programs_sort_not_forced :
    programsSearchQuery qNoSort "sort" = none ∧
    programsSearchQuery qWithSort "sort" = some (.str "date") := by
  exact ⟨rfl, rfl⟩

/-- Claim C8 amended: the programs search handler in server.js forces
collection, profile, num_ranks and form (client values for those keys
cannot reach the backend), but passes sort through; suggestPrograms.js
forces all five of collection, profile, num_ranks, sort and form. -/
theorem programs_forced_parameters (q1 q2 : Params) :
    ((∀ k, k ∉ (["collection", "profile", "num_ranks", "form"] : List String) →
        q1 k = q2 k) →
      ∀ k, programsSearchQuery q1 k = programsSearchQuery q2 k) ∧
    ((∀ k, k ∉ (["collection", "profile", "num_ranks", "sort", "form"] : List String) →
        q1 k = q2 k) →
      ∀ k, suggestProgramsQuery q1 k = suggestProgramsQuery q2 k) ∧
    (programsSearchQuery q1 "collection" = some (.str "seattleu~ds-programs") ∧
      programsSearchQuery q1 "profile" = some (.str "_default") ∧
      programsSearchQuery q1 "num_ranks" = some (.num 5) ∧
      programsSearchQuery q1 "form" = some (.str "partial")) ∧
    (suggestProgramsQuery q1 "collection" = some (.str "seattleu~ds-programs") ∧
      suggestProgramsQuery q1 "profile" = some (.str "_default") ∧
      suggestProgramsQuery q1 "num_ranks" = some (.num 5) ∧
      suggestProgramsQuery q1 "sort" = some (.str "title") ∧
      suggestProgramsQuery q1 "form" = some (.str "json")) := by
  refine ⟨?_, ?_, ?_, ?_⟩
  · intro h k
    unfold programsSearchQuery
    split_ifs with h1 h2 h3 h4
    · rfl
    · rfl
    · rfl
    · rfl
    · exact h k (by simp [h1, h2, h3, h4])
  · intro h k
    unfold suggestProgramsQuery
    split_ifs with h1 h2 h3 h4 h5
    · rfl
    · rfl
    · rfl
    · rfl
    · rfl
    · exact h k (by simp [h1, h2, h3, h4, h5])
  · exact ⟨rfl, rfl, rfl, rfl⟩
  · exact ⟨rfl, rfl, rfl, rfl, rfl⟩

/-- Claim C8 witness: a client-supplied collection value does not change
the forced parameters sent to the backend. -/
theorem programs_forced_parameters_witness :
    programsSearchQuery qNoSort "collection"
      = programsSearchQuery qClientCollection "collection" ∧
    suggestProgramsQuery qNoSort "sort"
      = suggestProgramsQuery qClientCollection "sort" := by
  have h := programs_forced_parameters qNoSort qClientCollection
  have hagree : ∀ k, k ≠ "collection" → qNoSort k = qClientCollection k := by
    intro k hk
    unfold qClientCollection
    rw [if_neg hk]
  exact ⟨h.1 (fun k hk => hagree k (by simp at hk; exact hk.1)) "collection",
         h.2.1 (fun k hk => hagree k (by simp at hk; exact hk.1)) "sort"⟩

/-! ### Claim C9 — enrichSuggestions is a length- and order-preserving map -/

/-- Claim C9: enrichSuggestions keeps the length, keeps each suggestion as
the display of the element at the same index, and gives every element the
same tabs list: 'program-main' is present iff the programMain tab
parameter is truthy, 'Faculty & Staff' iff the staff tab parameter is
truthy, so there are at most two tabs. -/
theorem enrichSuggestions_preserves_shape (suggestions : List String) (query : Params)
    (i : Nat) (hi : i < suggestions.length)
    (hi2 : i < (enrichSuggestions suggestions query).length) :
    (enrichSuggestions suggestions query).length = suggestions.length ∧
    ((enrichSuggestions suggestions query).get ⟨i, hi2⟩).display
      = suggestions.get ⟨i, hi⟩ ∧
    ("program-main" ∈ ((enrichSuggestions suggestions query).get ⟨i, hi2⟩).tabs
      ↔ qtruthy (query "f.Tabs|programMain") = true) ∧
    ("Faculty & Staff" ∈ ((enrichSuggestions suggestions query).get ⟨i, hi2⟩).tabs
      ↔ qtruthy (query "f.Tabs|seattleu~ds-staff") = true) ∧
    ((enrichSuggestions suggestions query).get ⟨i, hi2⟩).tabs.length ≤ 2 := by
  have hget : (enrichSuggestions suggestions query).get ⟨i, hi2⟩ =
      { display := suggestions.get ⟨i, hi⟩
        tabs := (if qtruthy (query "f.Tabs|programMain") then ["program-main"] else [])
          ++ (if qtruthy (query "f.Tabs|seattleu~ds-staff")
                then ["Faculty & Staff"] else []) } := by
    simp [enrichSuggestions, List.get_eq_getElem, List.getElem_map]
  rw [hget]
  refine ⟨by simp [enrichSuggestions], rfl, ?_, ?_, ?_⟩
  · cases hp : qtruthy (query "f.Tabs|programMain") <;>
      cases hs : qtruthy (query "f.Tabs|seattleu~ds-staff") <;>
      simp [hp, hs]
  · cases hp : qtruthy (query "f.Tabs|programMain") <;>
      cases hs : qtruthy (query "f.Tabs|seattleu~ds-staff") <;>
      simp [hp, hs]
  · cases hp : qtruthy (query "f.Tabs|programMain") <;>
      cases hs : qtruthy (query "f.Tabs|seattleu~ds-staff") <;>
      simp [hp, hs]

/-- Claim C9 witness: two suggestions under the programs tab. -/
theorem enrichSuggestions_preserves_shape_witness :
    (enrichSuggestions ["computer science", "computer engineering"] tabQuery).length = 2 ∧
    ((enrichSuggestions ["computer science", "computer engineering"] tabQuery).get
      ⟨0, by decide⟩).display = "computer science" ∧
    ("program-main" ∈ ((enrichSuggestions ["computer science", "computer engineering"]
      tabQuery).get ⟨0, by decide⟩).tabs ↔ qtruthy (tabQuery "f.Tabs|programMain") = true) := by
  have h := enrichSuggestions_preserves_shape
    ["computer science", "computer engineering"] tabQuery 0 (by decide) (by decide)
  exact ⟨h.1, h.2.1, h.2.2.1⟩

/-! ### Claim C7 — cache keys ignore parameter insertion order -/

/-- Claim C7 (spec-modelled): the derived cache key is invariant under
reordering of the query parameters. -/
theorem cacheKey_order_invariant (endpoint : String)
    (p1 p2 : List (String × String)) (h : p1.Perm p2) :
    generateCacheKey endpoint p1 = generateCacheKey endpoint p2 := by
  unfold generateCacheKey
  have hperm : ((p1.map fun p => p.1 ++ "=" ++ p.2)).Perm
      (p2.map fun p => p.1 ++ "=" ++ p.2) := h.map _
  have h1 : List.mergeSort (p1.map fun p => p.1 ++ "=" ++ p.2)
      = List.mergeSort (p2.map fun p => p.1 ++ "=" ++ p.2) :=
    List.eq_of_perm_of_sorted
      (((List.mergeSort_perm _ _).trans hperm).trans (List.mergeSort_perm _ _).symm)
      (List.sorted_mergeSort' _) (List.sorted_mergeSort' _)
  rw [h1]

/-- Claim C7 witness: swapping two parameters leaves the key unchanged. -/
theorem cacheKey_order_invariant_witness :
    generateCacheKey "suggest" [("collection", "seattleu~sp-search"), ("query", "art")]
      = generateCacheKey "suggest" [("query", "art"), ("collection", "seattleu~sp-search")] :=
  cacheKey_order_invariant "suggest" _ _
    (List.Perm.swap ("query", "art") ("collection", "seattleu~sp-search") [])

/-! ### Helper lemmas about splitPipe, stripTags and tags -/

theorem splitPipe_ne_nil (l : List Char) : splitPipe l ≠ [] := by
  induction l with
  | nil => simp [splitPipe]
  | cons c rest ih =>
    by_cases hc : c = '|'
    · subst hc; simp [splitPipe]
    · simp only [splitPipe, hc]
      cases h : splitPipe rest with
      | nil => exact absurd h ih
      | cons s ss => simp

theorem firstSegment_eq_takeWhile (l : List Char) :
    firstSegment l = l.takeWhile (fun c => c ≠ '|') := by
  induction l with
  | nil => rfl
  | cons c rest ih =>
    by_cases hc : c = '|'
    · subst hc
      simp [firstSegment, splitPipe, List.takeWhile_cons]
    · unfold firstSegment at ih ⊢
      simp only [splitPipe, hc, List.takeWhile_cons]
      cases h : splitPipe rest with
      | nil => exact absurd h (splitPipe_ne_nil rest)
      | cons s ss =>
        rw [h] at ih
        simp only [List.headD_cons] at ih ⊢
        simp [hc, ih]

theorem stripTagsGo_nil (fuel : Nat) : stripTagsGo fuel [] = [] := by
  cases fuel <;> rfl

theorem stripTagsGo_cons_ne (fuel : Nat) (c : Char) (rest : List Char) (hc : c ≠ '<') :
    stripTagsGo (fuel + 1) (c :: rest) = c :: stripTagsGo fuel rest := by
  simp [stripTagsGo, hc]

theorem mem_stripTagsGo {c : Char} :
    ∀ (fuel : Nat) (l : List Char), c ∈ stripTagsGo fuel l → c ∈ l := by
  intro fuel
  induction fuel with
  | zero => intro l h; simpa [stripTagsGo] using h
  | succ fuel ih =>
    intro l h
    cases l with
    | nil => simp [stripTagsGo] at h
    | cons d rest =>
      by_cases hd : d = '<'
      · subst hd
        rw [stripTagsGo] at h
        by_cases h1 : rest.takeWhile notGt = [] ∨ rest.dropWhile notGt = []
        · rw [if_pos h1] at h
          rcases List.mem_cons.mp h with h | h
          · exact h ▸ List.mem_cons_self _ _
          · exact List.mem_cons_of_mem _ (ih rest h)
        · rw [if_neg h1] at h
          have h2 : c ∈ (rest.dropWhile notGt).tail := ih _ h
          have h3 : c ∈ rest.dropWhile notGt := (List.tail_sublist _).subset h2
          exact List.mem_cons_of_mem _ ((List.dropWhile_subset notGt) h3)
      · rw [stripTagsGo_cons_ne fuel d rest hd] at h
        rcases List.mem_cons.mp h with h | h
        · exact h ▸ List.mem_cons_self _ _
        · exact List.mem_cons_of_mem _ (ih rest h)

theorem no_gt_stripTagsGo (fuel : Nat) (l : List Char) (h : '>' ∉ l) :
    '>' ∉ stripTagsGo fuel l :=
  fun hc => h (mem_stripTagsGo fuel l hc)

theorem takeWhile_append_middle {α : Type} (p : α → Bool) (t : List α) (x : α) (b : List α)
    (ht : ∀ c ∈ t, p c = true) (hx : p x = false) :
    (t ++ x :: b).takeWhile p = t ∧ (t ++ x :: b).dropWhile p = x :: b := by
  induction t with
  | nil => simp [List.takeWhile_cons, List.dropWhile_cons, hx]
  | cons c t ih =>
    have hc : p c = true := ht c (List.mem_cons_self _ _)
    have hrec := ih (fun d hd => ht d (List.mem_cons_of_mem _ hd))
    simp only [List.cons_append, List.takeWhile_cons, List.dropWhile_cons, hc]
    simp [hrec.1, hrec.2]

theorem hasTag_cons (c : Char) (l : List Char) :
    hasTag (c :: l) = (tagHead (c :: l) || hasTag l) := rfl

theorem tagHead_cons_ne (c : Char) (l : List Char) (hc : c ≠ '<') :
    tagHead (c :: l) = false := by
  simp [tagHead, hc]

theorem hasTag_stripTagsGo :
    ∀ (fuel : Nat) (l : List Char), l.length ≤ fuel →
      hasTag (stripTagsGo fuel l) = false := by
  intro fuel
  induction fuel with
  | zero =>
    intro l hl
    have : l = [] := List.length_eq_zero.mp (Nat.le_zero.mp hl)
    subst this
    rfl
  | succ fuel ih =>
    intro l hl
    cases l with
    | nil => rw [stripTagsGo_nil]; rfl
    | cons d rest =>
      have hrest : rest.length ≤ fuel := by
        simp only [List.length_cons] at hl
        omega
      by_cases hd : d = '<'
      · subst hd
        rw [stripTagsGo]
        by_cases h1 : rest.takeWhile notGt = [] ∨ rest.dropWhile notGt = []
        · rw [if_pos h1, hasTag_cons, ih rest hrest, Bool.or_false]
          rcases h1 with h1 | h1
          · cases rest with
            | nil => rw [stripTagsGo_nil]; rfl
            | cons e rest2 =>
              have he : notGt e = false := by
                by_contra habs
                have he2 : notGt e = true := by
                  cases hne : notGt e
                  · exact absurd hne habs
                  · rfl
                simp [List.takeWhile_cons, he2] at h1
              have he3 : e = '>' := by
                by_contra habs
                simp [notGt, habs] at he
              subst he3
              cases fuel with
              | zero => simp at hrest
              | succ f =>
                rw [stripTagsGo_cons_ne f '>' rest2 (by decide)]
                simp [tagHead, List.takeWhile_cons, notGt]
          · have hall : ∀ x ∈ rest, notGt x = true := List.dropWhile_eq_nil_iff.mp h1
            have hgt : '>' ∉ rest := by
              intro hmem
              have := hall _ hmem
              simp [notGt] at this
            have hout : '>' ∉ stripTagsGo fuel rest := no_gt_stripTagsGo _ _ hgt
            have hdw : (stripTagsGo fuel rest).dropWhile notGt = [] :=
              List.dropWhile_eq_nil_iff.mpr (fun x hx => by
                have hxne : x ≠ '>' := fun he => hout (he ▸ hx)
                simp [notGt, hxne])
            simp [tagHead, hdw]
        · rw [if_neg h1]
          refine ih _ ?_
          calc ((rest.dropWhile notGt).tail).length
              ≤ (rest.dropWhile notGt).length := (List.tail_sublist _).length_le
            _ ≤ rest.length := (List.dropWhile_sublist notGt).length_le
            _ ≤ fuel := hrest
      · rw [stripTagsGo_cons_ne fuel d rest hd, hasTag_cons,
          tagHead_cons_ne d _ hd, Bool.false_or]
        exact ih rest hrest

theorem hasTag_of_decomp (a t b : List Char) (ht : t ≠ []) (hgt : '>' ∉ t) :
    hasTag (a ++ '<' :: (t ++ '>' :: b)) = true := by
  induction a with
  | nil =>
    rw [List.nil_append, hasTag_cons]
    have hmid := takeWhile_append_middle notGt t '>' b
      (fun c hc => by
        have hcne : c ≠ '>' := fun he => hgt (he ▸ hc)
        simp [notGt, hcne])
      (by simp [notGt])
    simp [tagHead, hmid.1, hmid.2, ht]
  | cons c a ih =>
    rw [List.cons_append, hasTag_cons, ih, Bool.or_true]

theorem not_containsTag_of_hasTag (l : List Char) (h : hasTag l = false) :
    ¬ ContainsTag l := by
  rintro ⟨a, t, b, rfl, ht, hgt⟩
  rw [hasTag_of_decomp a t b ht hgt] at h
  exact absurd h (by decide)

theorem not_containsTag_nil : ¬ ContainsTag ([] : List Char) := by
  rintro ⟨a, t, b, h, -, -⟩
  cases a <;> simp at h

theorem containsTag_of_middle (u m v : List Char) (h : ContainsTag m) :
    ContainsTag (u ++ m ++ v) := by
  obtain ⟨a, t, b, rfl, ht, hgt⟩ := h
  exact ⟨u ++ a, t, b ++ v, by simp, ht, hgt⟩

theorem rev_dropWhile_decomp (m : List Char) :
    m = (m.reverse.dropWhile isWs).reverse ++ (m.reverse.takeWhile isWs).reverse := by
  conv_lhs => rw [← List.reverse_reverse m,
    ← List.takeWhile_append_dropWhile isWs m.reverse]
  rw [List.reverse_append]

theorem jsTrim_decomp (l : List Char) : ∃ u v, l = u ++ jsTrim l ++ v := by
  refine ⟨l.takeWhile isWs, ((l.dropWhile isWs).reverse.takeWhile isWs).reverse, ?_⟩
  unfold jsTrim
  conv_lhs => rw [← List.takeWhile_append_dropWhile isWs l,
    rev_dropWhile_decomp (l.dropWhile isWs)]
  rw [List.append_assoc]

/-! ### Claim C10 — cleanProgramTitle -/

/-- Claim C10: cleanProgramTitle returns '' on a falsy title; on a
non-empty title it returns the part before the first pipe with the tag
matches removed and the ends trimmed; the result never contains an HTML
tag, and nothing after the first pipe can influence the result. -/
theorem cleanProgramTitle_spec :
    cleanProgramTitle none = "" ∧
    cleanProgramTitle (some "") = "" ∧
    (∀ s : String, s ≠ "" →
      (cleanProgramTitle (some s)).data
        = jsTrim (stripTags (s.data.takeWhile (fun c => c ≠ '|')))) ∧
    (∀ t : Option String, ¬ ContainsTag (cleanProgramTitle t).data) ∧
    (∀ p t1 t2 : List Char, '|' ∉ p →
      cleanProgramTitle (some (p ++ '|' :: t1).asString)
        = cleanProgramTitle (some (p ++ '|' :: t2).asString)) := by
  have hmain : ∀ s : String, s ≠ "" →
      (cleanProgramTitle (some s)).data
        = jsTrim (stripTags (s.data.takeWhile (fun c => c ≠ '|'))) := by
    intro s hs
    simp only [cleanProgramTitle]
    rw [if_neg hs, firstSegment_eq_takeWhile]
    rfl
  have hnotag : ∀ t : Option String, ¬ ContainsTag (cleanProgramTitle t).data := by
    intro t
    match t with
    | none => exact not_containsTag_nil
    | some s =>
      by_cases hs : s = ""
      · subst hs
        simpa [cleanProgramTitle] using not_containsTag_nil
      · rw [hmain s hs]
        intro hct
        obtain ⟨u, v, hdecomp⟩ :=
          jsTrim_decomp (stripTags (s.data.takeWhile (fun c => c ≠ '|')))
        have h2 : ContainsTag (stripTags (s.data.takeWhile (fun c => c ≠ '|'))) :=
          hdecomp ▸ containsTag_of_middle _ _ _ hct
        exact not_containsTag_of_hasTag _
          (hasTag_stripTagsGo _ _ le_rfl) h2
  have hpipe : ∀ p t1 t2 : List Char, '|' ∉ p →
      cleanProgramTitle (some (p ++ '|' :: t1).asString)
        = cleanProgramTitle (some (p ++ '|' :: t2).asString) := by
    intro p t1 t2 hp
    have hne : ∀ t : List Char, (p ++ '|' :: t).asString ≠ "" := by
      intro t h
      have h2 : p ++ '|' :: t = [] := congrArg String.data h
      simp at h2
    simp only [cleanProgramTitle]
    rw [if_neg (hne t1), if_neg (hne t2)]
    show (jsTrim (stripTags (firstSegment (p ++ '|' :: t1)))).asString
      = (jsTrim (stripTags (firstSegment (p ++ '|' :: t2)))).asString
    have hseg : ∀ t : List Char, firstSegment (p ++ '|' :: t) = p := by
      intro t
      rw [firstSegment_eq_takeWhile]
      exact (takeWhile_append_middle _ p '|' t
        (fun c hc => by
          have hcne : c ≠ '|' := fun he => hp (he ▸ hc)
          simp [hcne])
        (by simp)).1
    rw [hseg t1, hseg t2]
  exact ⟨rfl, rfl, hmain, hnotag, hpipe⟩

/-- Claim C10 witness: a concrete title with a tag and a pipe, and a
concrete change of the text after the pipe. -/
theorem cleanProgramTitle_spec_witness :
    (cleanProgramTitle (some "Computer <b>Science</b> | BS")).data
      = jsTrim (stripTags ("Computer <b>Science</b> | BS".data.takeWhile
          (fun c => c ≠ '|'))) ∧
    cleanProgramTitle (some ((['M', 'A'] ++ '|' :: ['x']).asString))
      = cleanProgramTitle (some ((['M', 'A'] ++ '|' :: ['y']).asString)) := by
  exact ⟨cleanProgramTitle_spec.2.2.1 _ (by decide),
    cleanProgramTitle_spec.2.2.2.2 ['M', 'A'] ['x'] ['y'] (by decide)⟩

end FunnelbackProxy
